import Mathlib

set_option autoImplicit false

/-!
Shallow embedding of `src/server/src/search-engine/elasticsearch/search-engine.ts`
(the `ElasticsearchSearchEngine<T>` class).

The Elasticsearch client is modelled as an abstract backend: a record of
functions, one per client call the class issues.  Each backend call consumes a
backend state `σ` and returns an outcome (`Except ε α`) together with the next
backend state; a failing call may still advance the state.  Every engine
operation is translated into a function that, besides the backend state, also
produces the list of calls it issued (its trace), so temporal claims about
call sequences can be stated as facts about traces.
-/

namespace MVW

/-- Plain JSON values, used for index settings, mappings and error details. -/
inductive Json : Type where
  | null : Json
  | bool (b : Bool) : Json
  | num (n : Int) : Json
  | str (s : String) : Json
  | arr (elems : List Json) : Json
  | obj (fields : List (String × Json)) : Json

/-- `SearchEngineItem<T>` from `common/search-engine`: a document with its id. -/
structure SearchEngineItem (T : Type) : Type where
  id : String
  document : T

/-- One hit of an Elasticsearch search response (`hit._source`). -/
structure Hit (T : Type) : Type where
  source : T

/-- The `hits` object of an Elasticsearch search response. -/
structure SearchHits (T : Type) : Type where
  total : Nat
  hits : List (Hit T)

/-- The Elasticsearch search response shape used by `search` (`took`, `hits`). -/
structure EsSearchResponse (T : Type) : Type where
  took : Nat
  hits : SearchHits T

/-- `SearchResult<T>` from `common/search-engine`. -/
structure SearchResult (T : Type) : Type where
  total : Nat
  milliseconds : Nat
  items : List T

/-- One entry of `ElasticsearchBulkResponse.items`: an object with one action
key holding at least `status` and an optional `error`. -/
structure BulkResponseItem : Type where
  key : String
  status : Nat
  error : Option Json

/-- The `ElasticsearchBulkResponse` type alias of the source file. -/
structure ElasticsearchBulkResponse : Type where
  took : Nat
  errors : Bool
  items : List BulkResponseItem

/-- One line of a bulk request body: either an action directive
`\x7b index: \x7b _id \x7d \x7d` or a document. -/
inductive BulkLine (T : Type) : Type where
  | action (id : String) : BulkLine T
  | doc (d : T) : BulkLine T

/-- The calls an engine operation can issue, in the order they are issued.
`convert` records the invocation of `Converter.convert`; `sleep` records the
`sleep(ms)` suspension of the retry loop; the rest are Elasticsearch client
calls with the arguments the source passes. -/
inductive Call (T U Q : Type) : Type where
  | ping : Call T U Q
  | sleep (ms : Nat) : Call T U Q
  | indexExists (index : String) : Call T U Q
  | createIndex (index : String) : Call T U Q
  | closeIndex (index : String) : Call T U Q
  | putIndexSettings (index : String) (body : Json) : Call T U Q
  | putIndexMapping (index : String) (type_ : String) (body : Json) : Call T U Q
  | openIndex (index : String) : Call T U Q
  | refreshIndex (index : String) : Call T U Q
  | bulk (index : String) (type_ : String) (body : List (BulkLine T)) : Call T U Q
  | convert (q : U) : Call T U Q
  | search (q : Q) : Call T U Q
  | deleteIndex (index : String) : Call T U Q

/-- The abstract Elasticsearch client: one function per call the engine issues.
`σ` is the backend state, `ε` the backend error type, `T` the document type and
`Q` the converted (native) query type.  A call returns its outcome and the next
backend state; a failing call may still advance the state. -/
structure Backend (σ ε T Q : Type) : Type where
  ping : σ → Except ε Unit × σ
  indexExists : σ → String → Except ε Bool × σ
  createIndex : σ → String → Except ε Unit × σ
  closeIndex : σ → String → Except ε Unit × σ
  putIndexSettings : σ → String → Json → Except ε Unit × σ
  putIndexMapping : σ → String → String → Json → Except ε Unit × σ
  openIndex : σ → String → Except ε Unit × σ
  refreshIndex : σ → String → Except ε Unit × σ
  bulk : σ → String → String → List (BulkLine T) → Except ε ElasticsearchBulkResponse × σ
  search : σ → Q → Except ε (EsSearchResponse T) × σ
  deleteIndex : σ → String → Except ε Unit × σ

/-- Errors an engine operation can end with: a propagated backend error, the
`Error(JSON.stringify(response))` thrown by `index` when the bulk response has
its `errors` flag set (it carries the entire response), or the artifact of the
unbounded retry loop not having terminated within the observed fuel. -/
inductive RunError (ε : Type) : Type where
  | backend (e : ε) : RunError ε
  | bulkIndexError (response : ElasticsearchBulkResponse) : RunError ε
  | diverged : RunError ε

/-- The immutable per-instance fields of `ElasticsearchSearchEngine<T>`
(the client handle is passed separately as a `Backend`). -/
structure ElasticsearchSearchEngine : Type where
  indexName : String
  typeName : String
  indexSettings : Option Json
  mapping : Option Json

namespace ElasticsearchSearchEngine

/-- The constructor: stores `indexName`, `typeName` and `indexSettings` as
given; when `indexMapping` is supplied it stores the mapping nested under the
single key `typeName` (`this.mapping = \x7b\x7d; this.mapping[typeName] = indexMapping`). -/
def create (indexName typeName : String) (indexSettings : Option Json)
    (indexMapping : Option Json) : ElasticsearchSearchEngine where
  indexName := indexName
  typeName := typeName
  indexSettings := indexSettings
  mapping :=
    match indexMapping with
    | none => none
    | some m => some (Json.obj [(typeName, m)])

end ElasticsearchSearchEngine

/-- Lift a backend-level outcome into an engine-level outcome. -/
def liftB {ε α : Type} : Except ε α → Except (RunError ε) α
  | Except.ok a => Except.ok a
  | Except.error e => Except.error (RunError.backend e)

/-- Sequencing of two traced, fallible steps: `await x; f` — if `x` fails the
error propagates and `f` is never run; otherwise `f` runs on the state `x`
left and the traces concatenate. -/
def andThen {σ ε β : Type} {C : Type}
    (x : List C × σ × Except (RunError ε) Unit)
    (f : σ → List C × σ × Except (RunError ε) β) :
    List C × σ × Except (RunError ε) β :=
  match x with
  | (tr, s, Except.error e) => (tr, s, Except.error e)
  | (tr, s, Except.ok _) =>
    match f s with
    | (tr2, s2, r) => (tr ++ tr2, s2, r)

namespace ElasticsearchSearchEngine

variable {σ ε T U Q : Type}

/-- `waitForConnection`: the do/try/catch/sleep loop.  A caught ping failure
only logs; the loop sleeps 2000ms after every attempt — including the
successful one — and exits only once `success` is true.  The `Nat` argument is
fuel bounding the number of observed iterations of the (unbounded) loop; the
`Bool` of the result tells whether the loop has exited within that fuel. -/
def waitForConnection (B : Backend σ ε T Q) :
    Nat → σ → List (Call T U Q) × σ × Bool
  | 0, s => ([], s, false)
  | Nat.succ n, s =>
    match B.ping s with
    | (Except.ok _, s1) => ([Call.ping, Call.sleep 2000], s1, true)
    | (Except.error _, s1) =>
      match waitForConnection B n s1 with
      | (tr, s2, c) => (Call.ping :: Call.sleep 2000 :: tr, s2, c)

/-- `ensureIndex`: check existence, create the index only when absent. -/
def ensureIndex (B : Backend σ ε T Q) (e : ElasticsearchSearchEngine) (s : σ) :
    List (Call T U Q) × σ × Except (RunError ε) Unit :=
  match B.indexExists s e.indexName with
  | (Except.error err, s1) =>
    ([Call.indexExists e.indexName], s1, Except.error (RunError.backend err))
  | (Except.ok true, s1) => ([Call.indexExists e.indexName], s1, Except.ok ())
  | (Except.ok false, s1) =>
    match B.createIndex s1 e.indexName with
    | (r, s2) =>
      ([Call.indexExists e.indexName, Call.createIndex e.indexName], s2, liftB r)

/-- The `indices.close` step of `initialize`. -/
def closeStep (B : Backend σ ε T Q) (e : ElasticsearchSearchEngine) (s : σ) :
    List (Call T U Q) × σ × Except (RunError ε) Unit :=
  match B.closeIndex s e.indexName with
  | (r, s1) => ([Call.closeIndex e.indexName], s1, liftB r)

/-- The conditional `indices.putSettings` step of `initialize`. -/
def settingsStep (B : Backend σ ε T Q) (e : ElasticsearchSearchEngine) (s : σ) :
    List (Call T U Q) × σ × Except (RunError ε) Unit :=
  match e.indexSettings with
  | none => ([], s, Except.ok ())
  | some st =>
    match B.putIndexSettings s e.indexName st with
    | (r, s1) => ([Call.putIndexSettings e.indexName st], s1, liftB r)

/-- The conditional `indices.putMapping` step of `initialize`. -/
def mappingStep (B : Backend σ ε T Q) (e : ElasticsearchSearchEngine) (s : σ) :
    List (Call T U Q) × σ × Except (RunError ε) Unit :=
  match e.mapping with
  | none => ([], s, Except.ok ())
  | some m =>
    match B.putIndexMapping s e.indexName e.typeName m with
    | (r, s1) => ([Call.putIndexMapping e.indexName e.typeName m], s1, liftB r)

/-- The `indices.open` step of `initialize`. -/
def openStep (B : Backend σ ε T Q) (e : ElasticsearchSearchEngine) (s : σ) :
    List (Call T U Q) × σ × Except (RunError ε) Unit :=
  match B.openIndex s e.indexName with
  | (r, s1) => ([Call.openIndex e.indexName], s1, liftB r)

/-- The `indices.refresh` step of `initialize`. -/
def refreshStep (B : Backend σ ε T Q) (e : ElasticsearchSearchEngine) (s : σ) :
    List (Call T U Q) × σ × Except (RunError ε) Unit :=
  match B.refreshIndex s e.indexName with
  | (r, s1) => ([Call.refreshIndex e.indexName], s1, liftB r)

/-- The configuration part of `initialize` (lines 32-45 of the source): when
settings or mapping were supplied, close, optionally put settings, optionally
put mapping, open, refresh, each awaited in turn; otherwise nothing. -/
def applyConfiguration (B : Backend σ ε T Q) (e : ElasticsearchSearchEngine)
    (s : σ) : List (Call T U Q) × σ × Except (RunError ε) Unit :=
  if e.indexSettings.isSome || e.mapping.isSome then
    andThen (closeStep B e s) fun s1 =>
    andThen (settingsStep B e s1) fun s2 =>
    andThen (mappingStep B e s2) fun s3 =>
    andThen (openStep B e s3) fun s4 =>
    refreshStep B e s4
  else ([], s, Except.ok ())

/-- `initialize`: wait for the connection, ensure the index, then apply the
configuration.  The fuel bounds the retry loop; if the loop has not exited
within it the artificial outcome is `RunError.diverged`. -/
def initializeEngine (B : Backend σ ε T Q) (e : ElasticsearchSearchEngine)
    (fuel : Nat) (s : σ) : List (Call T U Q) × σ × Except (RunError ε) Unit :=
  match waitForConnection B fuel s with
  | (trW, s1, false) => (trW, s1, Except.error RunError.diverged)
  | (trW, s1, true) =>
    match andThen (ensureIndex B e s1) (fun s2 => applyConfiguration B e s2) with
    | (tr2, s3, r) => (trW ++ tr2, s3, r)

/-- The bulk request body built by `index`: per item, in input order, the
action line `\x7b index: \x7b _id: item.id \x7d \x7d` followed by the document. -/
def bulkBody (items : List (SearchEngineItem T)) : List (BulkLine T) :=
  match items with
  | [] => []
  | item :: rest => BulkLine.action item.id :: BulkLine.doc item.document :: bulkBody rest

/-- `index`: one bulk call addressed at the configured index and type, with
the body built from the items; the operation throws iff the response's
aggregate `errors` flag is set, and the thrown error carries the response. -/
def index (B : Backend σ ε T Q) (e : ElasticsearchSearchEngine)
    (items : List (SearchEngineItem T)) (s : σ) :
    List (Call T U Q) × σ × Except (RunError ε) Unit :=
  match B.bulk s e.indexName e.typeName (bulkBody items) with
  | (Except.error err, s1) =>
    ([Call.bulk e.indexName e.typeName (bulkBody items)], s1,
      Except.error (RunError.backend err))
  | (Except.ok response, s1) =>
    ([Call.bulk e.indexName e.typeName (bulkBody items)], s1,
      if response.errors then Except.error (RunError.bulkIndexError response)
      else Except.ok ())

/-- `search`: convert the query once (`Converter.convert` is passed in as the
pure function `convert`, whose source module is not part of this repository),
execute it once against the backend, and map the response to a
`SearchResult` preserving hit order. -/
def search (B : Backend σ ε T Q) (convert : U → String → String → Q)
    (e : ElasticsearchSearchEngine) (q : U) (s : σ) :
    List (Call T U Q) × σ × Except (RunError ε) (SearchResult T) :=
  let elasticsearchQuery := convert q e.indexName e.typeName
  match B.search s elasticsearchQuery with
  | (Except.error err, s1) =>
    ([Call.convert q, Call.search elasticsearchQuery], s1,
      Except.error (RunError.backend err))
  | (Except.ok result, s1) =>
    ([Call.convert q, Call.search elasticsearchQuery], s1,
      Except.ok
        { total := result.hits.total
          milliseconds := result.took
          items := result.hits.hits.map (fun hit => hit.source) })

/-- `drop`: delete the configured index, then run `initialize` again. -/
def drop (B : Backend σ ε T Q) (e : ElasticsearchSearchEngine)
    (fuel : Nat) (s : σ) : List (Call T U Q) × σ × Except (RunError ε) Unit :=
  match B.deleteIndex s e.indexName with
  | (Except.error err, s1) =>
    ([Call.deleteIndex e.indexName], s1, Except.error (RunError.backend err))
  | (Except.ok _, s1) =>
    match initializeEngine (U := U) B e fuel s1 with
    | (tr, s2, r) => (Call.deleteIndex e.indexName :: tr, s2, r)

end ElasticsearchSearchEngine

/-- The configuration call sequence as the specification words it: close, then
put settings (when supplied), then put mapping (when supplied), then open,
then refresh.  This definition follows the spec's sentence and is compared
with the trace the embedded code produces. -/
def specConfigSequence {T U Q : Type} (e : ElasticsearchSearchEngine) :
    List (Call T U Q) :=
  [Call.closeIndex e.indexName]
    ++ (match e.indexSettings with
        | none => []
        | some st => [Call.putIndexSettings e.indexName st])
    ++ (match e.mapping with
        | none => []
        | some m => [Call.putIndexMapping e.indexName e.typeName m])
    ++ [Call.openIndex e.indexName, Call.refreshIndex e.indexName]

/-- A public operation of the engine, used to state frame properties over
arbitrary operation sequences. -/
inductive Op (T U : Type) : Type where
  | initOp (fuel : Nat) : Op T U
  | indexOp (items : List (SearchEngineItem T)) : Op T U
  | searchOp (q : U) : Op T U
  | dropOp (fuel : Nat) : Op T U

/-- Run one public operation on the pair of the engine instance and the
backend state.  The source class never assigns to its `readonly` fields
outside the constructor, so no operation produces a changed instance. -/
def runOp {σ ε T U Q : Type} (B : Backend σ ε T Q)
    (convert : U → String → String → Q) :
    Op T U → ElasticsearchSearchEngine × σ → ElasticsearchSearchEngine × σ
  | Op.initOp fuel, (e, s) =>
    (e, (ElasticsearchSearchEngine.initializeEngine (U := U) B e fuel s).2.1)
  | Op.indexOp items, (e, s) =>
    (e, (ElasticsearchSearchEngine.index (U := U) B e items s).2.1)
  | Op.searchOp q, (e, s) =>
    (e, (ElasticsearchSearchEngine.search B convert e q s).2.1)
  | Op.dropOp fuel, (e, s) =>
    (e, (ElasticsearchSearchEngine.drop (U := U) B e fuel s).2.1)

/-- Run a sequence of public operations left to right. -/
def runOps {σ ε T U Q : Type} (B : Backend σ ε T Q)
    (convert : U → String → String → Q) (ops : List (Op T U))
    (p : ElasticsearchSearchEngine × σ) : ElasticsearchSearchEngine × σ :=
  ops.foldl (fun p op => runOp B convert op p) p

/-- A backend whose health probe at the k-th ping attempt (counting from 0)
succeeds exactly when `f k` is true; the state counts the pings issued so
far.  All other calls succeed trivially — they are irrelevant to the
connection gate. -/
def scheduleBackend {T Q : Type} (f : Nat → Bool) : Backend Nat Unit T Q where
  ping := fun k => ((if f k then Except.ok () else Except.error ()), k + 1)
  indexExists := fun k _ => (Except.ok true, k)
  createIndex := fun k _ => (Except.ok (), k)
  closeIndex := fun k _ => (Except.ok (), k)
  putIndexSettings := fun k _ _ => (Except.ok (), k)
  putIndexMapping := fun k _ _ _ => (Except.ok (), k)
  openIndex := fun k _ => (Except.ok (), k)
  refreshIndex := fun k _ => (Except.ok (), k)
  bulk := fun k _ _ _ => (Except.ok { took := 0, errors := false, items := [] }, k)
  search := fun k _ => (Except.ok { took := 0, hits := { total := 0, hits := [] } }, k)
  deleteIndex := fun k _ => (Except.ok (), k)

/-- Modelled from the spec: the state of one index held by the backend — the
backend itself (an external Elasticsearch cluster) is not part of this
repository, so its state is modelled from the capability interface of the
spec (open/closed flag, applied settings, applied mappings per type, stored
documents by id). -/
structure ESIndexState (T : Type) : Type where
  isOpen : Bool
  settings : Option Json
  mappings : List (String × Json)
  docs : List (String × T)

/-- Modelled from the spec: the backend state — the indices that exist, by
name. -/
def ESState (T : Type) : Type := String → Option (ESIndexState T)

/-- Replace the state of one index. -/
def esSetIndex {T : Type} (s : ESState T) (name : String) (ix : ESIndexState T) :
    ESState T :=
  fun n => if n = name then some ix else s n

/-- Insert or overwrite the mapping stored for one type. -/
def upsertMapping (l : List (String × Json)) (ty : String) (body : Json) :
    List (String × Json) :=
  match l with
  | [] => [(ty, body)]
  | (k, v) :: rest =>
    if k = ty then (ty, body) :: rest else (k, v) :: upsertMapping rest ty body

/-- Insert or overwrite the document stored under one id (upsert semantics). -/
def upsertDoc {T : Type} (l : List (String × T)) (id : String) (d : T) :
    List (String × T) :=
  match l with
  | [] => [(id, d)]
  | (k, v) :: rest =>
    if k = id then (id, d) :: rest else (k, v) :: upsertDoc rest id d

/-- Apply the lines of a bulk request body to a document store: each action
line carries the id under which the following document line is upserted. -/
def applyBulkLines {T : Type} (docs : List (String × T)) :
    List (BulkLine T) → List (String × T)
  | [] => docs
  | BulkLine.action id :: BulkLine.doc d :: rest =>
    applyBulkLines (upsertDoc docs id d) rest
  | _ :: rest => applyBulkLines docs rest

/-- Modelled from the spec: a canonical backend over `ESState`.  Ping always
succeeds (the cluster is reachable); operations on a missing index fail;
settings changes are rejected on an open index (the spec: most backends
reject settings changes on an open index — the reason for the
close/configure/open protocol); a newly created index is open with default
(empty) settings, mappings and contents. -/
def esBackend {T Q : Type} : Backend (ESState T) String T Q where
  ping := fun s => (Except.ok (), s)
  indexExists := fun s name => (Except.ok (s name).isSome, s)
  createIndex := fun s name =>
    match s name with
    | some _ => (Except.error "index_already_exists", s)
    | none =>
      (Except.ok (), esSetIndex s name
        { isOpen := true, settings := none, mappings := [], docs := [] })
  closeIndex := fun s name =>
    match s name with
    | none => (Except.error "index_not_found", s)
    | some ix => (Except.ok (), esSetIndex s name { ix with isOpen := false })
  putIndexSettings := fun s name body =>
    match s name with
    | none => (Except.error "index_not_found", s)
    | some ix =>
      if ix.isOpen then (Except.error "index_not_closed", s)
      else (Except.ok (), esSetIndex s name { ix with settings := some body })
  putIndexMapping := fun s name ty body =>
    match s name with
    | none => (Except.error "index_not_found", s)
    | some ix =>
      (Except.ok (), esSetIndex s name
        { ix with mappings := upsertMapping ix.mappings ty body })
  openIndex := fun s name =>
    match s name with
    | none => (Except.error "index_not_found", s)
    | some ix => (Except.ok (), esSetIndex s name { ix with isOpen := true })
  refreshIndex := fun s name =>
    match s name with
    | none => (Except.error "index_not_found", s)
    | some _ => (Except.ok (), s)
  bulk := fun s name _ body =>
    match s name with
    | none => (Except.error "index_not_found", s)
    | some ix =>
      (Except.ok { took := 1, errors := false, items := [] },
        esSetIndex s name { ix with docs := applyBulkLines ix.docs body })
  search := fun s _ =>
    (Except.ok { took := 1, hits := { total := 0, hits := [] } }, s)
  deleteIndex := fun s name =>
    match s name with
    | none => (Except.error "index_not_found", s)
    | some _ => (Except.ok (), fun n => if n = name then none else s n)

/-- The canonical backend state with no index at all. -/
def emptyES {T : Type} : ESState T := fun _ => none

/-- Recognize a ping call. -/
def Call.isPing {T U Q : Type} : Call T U Q → Bool
  | Call.ping => true
  | _ => false

/-- Recognize a sleep call. -/
def Call.isSleep {T U Q : Type} : Call T U Q → Bool
  | Call.sleep _ => true
  | _ => false

/-- Recognize a putIndexMapping call. -/
def Call.isPutIndexMapping {T U Q : Type} : Call T U Q → Bool
  | Call.putIndexMapping _ _ _ => true
  | _ => false

/-- `n` rounds of the retry loop as they appear in the trace: a ping followed
by the fixed 2000ms backoff sleep, `n` times. -/
def pingCycles {T U Q : Type} : Nat → List (Call T U Q)
  | 0 => []
  | Nat.succ n => Call.ping :: Call.sleep 2000 :: pingCycles n

/-- The backend operation named by one call can fail with error `err0` (for
some backend states): this ties a propagated error to the call that raised
it.  `sleep` and `convert` are not backend calls and never fail. -/
def callFails {σ ε T U Q : Type} (B : Backend σ ε T Q) (err0 : ε) :
    Call T U Q → Prop
  | Call.ping => ∃ s s1, B.ping s = (Except.error err0, s1)
  | Call.sleep _ => False
  | Call.indexExists idx => ∃ s s1, B.indexExists s idx = (Except.error err0, s1)
  | Call.createIndex idx => ∃ s s1, B.createIndex s idx = (Except.error err0, s1)
  | Call.closeIndex idx => ∃ s s1, B.closeIndex s idx = (Except.error err0, s1)
  | Call.putIndexSettings idx body =>
    ∃ s s1, B.putIndexSettings s idx body = (Except.error err0, s1)
  | Call.putIndexMapping idx ty body =>
    ∃ s s1, B.putIndexMapping s idx ty body = (Except.error err0, s1)
  | Call.openIndex idx => ∃ s s1, B.openIndex s idx = (Except.error err0, s1)
  | Call.refreshIndex idx => ∃ s s1, B.refreshIndex s idx = (Except.error err0, s1)
  | Call.bulk idx ty body => ∃ s s1, B.bulk s idx ty body = (Except.error err0, s1)
  | Call.convert _ => False
  | Call.search q => ∃ s s1, B.search s q = (Except.error err0, s1)
  | Call.deleteIndex idx => ∃ s s1, B.deleteIndex s idx = (Except.error err0, s1)

/-- What a traced, fallible step must satisfy relative to an expected call
sequence: its trace is a prefix of the expected calls; on success the trace
is all of them; on failure the error is a propagated backend error, the
trace ends exactly at the call that raised it — so no later step of the
sequence is issued past a failing one — and that last call is one the
backend can fail with that error. -/
def ConfigSpec {σ ε T U Q : Type} (B : Backend σ ε T Q)
    (x : List (Call T U Q) × σ × Except (RunError ε) Unit)
    (expected : List (Call T U Q)) : Prop :=
  (∃ n, n ≤ expected.length ∧ x.1 = expected.take n)
    ∧ (x.2.2 = Except.ok () → x.1 = expected)
    ∧ (∀ err, x.2.2 = Except.error err →
        ∃ err0 c, err = RunError.backend err0
          ∧ x.1.getLast? = some c
          ∧ callFails B err0 c)

/-- A bulk response whose aggregate errors flag is set; its item list holds
one succeeded and one failed item, as a backend reports a partial failure. -/
def sampleBulkResponse : ElasticsearchBulkResponse where
  took := 5
  errors := true
  items :=
    [{ key := "index", status := 201, error := none },
     { key := "index", status := 400, error := some (Json.str "mapper_parsing_exception") }]

/-- A backend whose bulk call reports `sampleBulkResponse` and whose other
calls succeed trivially. -/
def bulkFailBackend {T Q : Type} : Backend Nat Unit T Q :=
  { scheduleBackend (T := T) (Q := Q) (fun _ => true) with
    bulk := fun k _ _ _ => (Except.ok sampleBulkResponse, k) }

/-- A search response with two hits, used to exercise result mapping. -/
def sampleSearchResponse : EsSearchResponse String where
  took := 3
  hits := { total := 7, hits := [{ source := "d1" }, { source := "d2" }] }

/-- A backend whose query execution reports `sampleSearchResponse` and whose
other calls succeed trivially. -/
def searchBackend {Q : Type} : Backend Nat Unit String Q :=
  { scheduleBackend (T := String) (Q := Q) (fun _ => true) with
    search := fun k _ => (Except.ok sampleSearchResponse, k) }

/-- A canonical backend state holding exactly one open, unconfigured index
named `media`. -/
def oneIndexES : ESState String := fun n =>
  if n = "media" then
    some { isOpen := true, settings := none, mappings := [], docs := [] }
  else none

/-! Theorems.  Helper lemmas come first, then one theorem per claim (with its
witness or counterexample where applicable). -/

namespace ElasticsearchSearchEngine

theorem bulkBody_pairs {T : Type} (items : List (SearchEngineItem T)) :
    (bulkBody items).length = 2 * items.length
    ∧ ∀ i it, items[i]? = some it →
        (bulkBody items)[2 * i]? = some (BulkLine.action it.id)
        ∧ (bulkBody items)[2 * i + 1]? = some (BulkLine.doc it.document) := by
  induction items with
  | nil =>
    refine ⟨rfl, ?_⟩
    intro i it h
    simp at h
  | cons x rest ih =>
    refine ⟨by simp [bulkBody, ih.1]; omega, ?_⟩
    intro i it h
    cases i with
    | zero =>
      simp at h
      subst h
      simp [bulkBody]
    | succ n =>
      simp at h
      have h2 := ih.2 n it h
      have e1 : 2 * (n + 1) = 2 * n + 1 + 1 := by ring
      rw [e1]
      simp [bulkBody, h2.1, h2.2]

/-- C4: for every list of items (including the empty list), `index(items)`
issues exactly one backend bulk call, addressed to the configured index and
type, whose body is the concatenation, per item in input order, of an upsert
directive keyed by that item's id followed by that item's document. -/
theorem index_single_bulk_call {σ ε T U Q : Type} (B : Backend σ ε T Q)
    (e : ElasticsearchSearchEngine) (items : List (SearchEngineItem T)) (s : σ) :
    (index (U := U) B e items s).1
      = [Call.bulk e.indexName e.typeName (bulkBody items)]
    ∧ (bulkBody items).length = 2 * items.length
    ∧ ∀ i it, items[i]? = some it →
        (bulkBody items)[2 * i]? = some (BulkLine.action it.id)
        ∧ (bulkBody items)[2 * i + 1]? = some (BulkLine.doc it.document) := by
  refine ⟨?_, (bulkBody_pairs items).1, (bulkBody_pairs items).2⟩
  rcases hb : B.bulk s e.indexName e.typeName (bulkBody items) with ⟨r, s1⟩
  cases r <;> simp [ElasticsearchSearchEngine.index, hb]

/-- Witness for `index_single_bulk_call` at a concrete two-item batch. -/
theorem index_single_bulk_call_witness :
    (index (U := Unit)
        (scheduleBackend (T := String) (Q := Unit) (fun _ => true))
        (create "media" "mt" none none)
        [⟨"a", "docA"⟩, ⟨"b", "docB"⟩] 0).1
      = [Call.bulk "media" "mt"
          [BulkLine.action "a", BulkLine.doc "docA",
           BulkLine.action "b", BulkLine.doc "docB"]]
    ∧ (bulkBody (T := String) [⟨"a", "docA"⟩, ⟨"b", "docB"⟩])[2]?
        = some (BulkLine.action "b") := by
  have h := index_single_bulk_call (U := Unit)
    (scheduleBackend (T := String) (Q := Unit) (fun _ => true))
    (create "media" "mt" none none)
    [⟨"a", "docA"⟩, ⟨"b", "docB"⟩] 0
  refine ⟨?_, ?_⟩
  · have h1 := h.1
    simpa [bulkBody, ElasticsearchSearchEngine.create] using h1
  · have h2 := (h.2.2 1 ⟨"b", "docB"⟩ (by simp)).1
    simpa using h2

/-- C2: `index(items)` fails iff the backend bulk response has its aggregate
errors flag set; when it fails the error is the bulk-index error carrying the
full response (hence the complete per-item outcome list, succeeded items
included); when the flag is not set, `index` returns normally. -/
theorem index_fails_iff_errors_flag {σ ε T U Q : Type} (B : Backend σ ε T Q)
    (e : ElasticsearchSearchEngine) (items : List (SearchEngineItem T))
    (s s1 : σ) (resp : ElasticsearchBulkResponse)
    (h : B.bulk s e.indexName e.typeName (bulkBody items) = (Except.ok resp, s1)) :
    ((index (U := U) B e items s).2.2
        = Except.error (RunError.bulkIndexError resp) ↔ resp.errors = true)
    ∧ (resp.errors = false →
        (index (U := U) B e items s).2.2 = Except.ok ())
    ∧ ∀ err, (index (U := U) B e items s).2.2
          = Except.error err →
        resp.errors = true ∧ err = RunError.bulkIndexError resp := by
  cases hr : resp.errors <;>
    simp [ElasticsearchSearchEngine.index, h, hr]

/-- Witness for `index_fails_iff_errors_flag`: a backend reporting a partial
bulk failure makes `index` throw the error carrying the full response. -/
theorem index_fails_iff_errors_flag_witness :
    (index (U := Unit)
        (bulkFailBackend (T := String) (Q := Unit))
        (create "media" "mt" none none) [] 0).2.2
      = Except.error (RunError.bulkIndexError sampleBulkResponse)
    ∧ sampleBulkResponse.errors = true
    ∧ sampleBulkResponse.items.length = 2 := by
  have h := index_fails_iff_errors_flag (U := Unit)
    (bulkFailBackend (T := String) (Q := Unit))
    (create "media" "mt" none none) [] 0 0
    sampleBulkResponse rfl
  exact ⟨h.1.mpr rfl, rfl, rfl⟩

/-- C5: `search(query)` performs exactly one conversion and exactly one
backend query execution whatever the backend does — its trace is exactly
those two events, in order, for every backend state, and a failing query
surfaces the backend error immediately with that same two-event trace (no
retry); when the backend responds, the returned `SearchResult` carries the
backend-reported total and took values and the hits' source documents in
backend order. -/
theorem search_converts_once_maps_hits {σ ε T U Q : Type} (B : Backend σ ε T Q)
    (convert : U → String → String → Q) (e : ElasticsearchSearchEngine)
    (q : U) (s s1 : σ) (r : EsSearchResponse T)
    (h : B.search s (convert q e.indexName e.typeName) = (Except.ok r, s1)) :
    (∀ s2 : σ, (search B convert e q s2).1
      = [Call.convert q, Call.search (convert q e.indexName e.typeName)])
    ∧ (∀ (s2 s3 : σ) (err : ε),
        B.search s2 (convert q e.indexName e.typeName) = (Except.error err, s3) →
        search B convert e q s2
          = ([Call.convert q, Call.search (convert q e.indexName e.typeName)],
             s3, Except.error (RunError.backend err)))
    ∧ (search B convert e q s).2.2
      = Except.ok
          { total := r.hits.total
            milliseconds := r.took
            items := r.hits.hits.map (fun hit => hit.source) }
    ∧ ∀ i : Nat, (r.hits.hits.map (fun hit => hit.source))[i]?
        = (r.hits.hits[i]?).map (fun (hit : Hit T) => hit.source) := by
  refine ⟨?_, ?_, ?_, ?_⟩
  · intro s2
    rcases hs : B.search s2 (convert q e.indexName e.typeName) with ⟨r2, s4⟩
    cases r2 <;> simp [ElasticsearchSearchEngine.search, hs]
  · intro s2 s3 err he
    simp [ElasticsearchSearchEngine.search, he]
  · simp [ElasticsearchSearchEngine.search, h]
  · intro i
    simp [List.getElem?_map]

/-- Witness for `search_converts_once_maps_hits`: a two-hit response maps to
a two-item result preserving order. -/
theorem search_converts_once_maps_hits_witness :
    (search (searchBackend (Q := Unit))
        (fun _ _ _ => ()) (create "media" "mt" none none)
        () 0).2.2
      = Except.ok { total := 7, milliseconds := 3, items := ["d1", "d2"] } := by
  have h := search_converts_once_maps_hits (searchBackend (Q := Unit))
    (fun _ _ _ => ()) (create "media" "mt" none none)
    () 0 0 sampleSearchResponse rfl
  simpa [sampleSearchResponse] using h.2.2.1

theorem andThen_error {σ ε β C : Type} (tr : List C) (s : σ) (e0 : RunError ε)
    (f : σ → List C × σ × Except (RunError ε) β) :
    andThen (tr, s, Except.error e0) f = (tr, s, Except.error e0) := rfl

theorem andThen_ok {σ ε β C : Type} (tr : List C) (s : σ)
    (f : σ → List C × σ × Except (RunError ε) β) :
    andThen (tr, s, Except.ok ()) f = (tr ++ (f s).1, (f s).2.1, (f s).2.2) := by
  rcases hfs : f s with ⟨tr2, s2, r2⟩
  simp [andThen, hfs]

theorem configSpec_single {σ ε T U Q : Type} (B : Backend σ ε T Q)
    (c : Call T U Q) (s1 : σ) (r : Except ε Unit)
    (hfail : ∀ e0, r = Except.error e0 → callFails B e0 c) :
    ConfigSpec B (([c], s1, liftB r)) [c] := by
  refine ⟨⟨1, by simp, rfl⟩, fun _ => rfl, ?_⟩
  intro err h
  cases r with
  | ok a => simp [liftB] at h
  | error e0 =>
    simp [liftB] at h
    exact ⟨e0, c, h.symm, rfl, hfail e0 rfl⟩

theorem configSpec_empty {σ ε T U Q : Type} (B : Backend σ ε T Q) (s : σ) :
    ConfigSpec B (([] : List (Call T U Q)), s,
      (Except.ok () : Except (RunError ε) Unit)) [] := by
  refine ⟨⟨0, by simp, rfl⟩, fun _ => rfl, ?_⟩
  intro err h
  simp at h

theorem configSpec_andThen {σ ε T U Q : Type} {B : Backend σ ε T Q}
    {x : List (Call T U Q) × σ × Except (RunError ε) Unit} {A : List (Call T U Q)}
    {f : σ → List (Call T U Q) × σ × Except (RunError ε) Unit}
    {Bs : List (Call T U Q)}
    (hx : ConfigSpec B x A) (hf : ∀ s, ConfigSpec B (f s) Bs) :
    ConfigSpec B (andThen x f) (A ++ Bs) := by
  rcases x with ⟨tr, s, r⟩
  rcases hx with ⟨⟨n, hn, htr⟩, hok, herr⟩
  cases r with
  | error e0 =>
    rw [andThen_error]
    refine ⟨⟨n, ?_, ?_⟩, ?_, ?_⟩
    · simp
      omega
    · show tr = (A ++ Bs).take n
      rw [List.take_append_of_le_length hn]
      exact htr
    · intro h
      simp at h
    · intro err h
      simp at h
      subst h
      exact herr e0 rfl
  | ok u =>
    cases u
    rw [andThen_ok]
    have htrA : tr = A := hok rfl
    rcases hf s with ⟨⟨m, hm, htr2⟩, hok2, herr2⟩
    refine ⟨⟨A.length + m, ?_, ?_⟩, ?_, ?_⟩
    · simp
      omega
    · show tr ++ (f s).1 = (A ++ Bs).take (A.length + m)
      rw [List.take_append m, htrA, htr2]
    · intro h
      show tr ++ (f s).1 = A ++ Bs
      rw [htrA, hok2 h]
    · intro err h
      rcases herr2 err h with ⟨err0, c, herr0, hgl, hcf⟩
      refine ⟨err0, c, herr0, ?_, hcf⟩
      show (tr ++ (f s).1).getLast? = some c
      have hne : (f s).1 ≠ [] := by
        intro hnil
        rw [hnil] at hgl
        simp at hgl
      rw [List.getLast?_append_of_ne_nil tr hne]
      exact hgl

theorem configSpec_closeStep {σ ε T U Q : Type} (B : Backend σ ε T Q)
    (e : ElasticsearchSearchEngine) (s : σ) :
    ConfigSpec B (closeStep (U := U) B e s) [Call.closeIndex e.indexName] := by
  rcases hc : B.closeIndex s e.indexName with ⟨r, s1⟩
  have h1 : closeStep (U := U) B e s
      = ([Call.closeIndex e.indexName], s1, liftB r) := by
    simp [closeStep, hc]
  rw [h1]
  refine configSpec_single B _ _ _ ?_
  intro e0 he0
  subst he0
  exact ⟨s, s1, hc⟩

theorem configSpec_openStep {σ ε T U Q : Type} (B : Backend σ ε T Q)
    (e : ElasticsearchSearchEngine) (s : σ) :
    ConfigSpec B (openStep (U := U) B e s) [Call.openIndex e.indexName] := by
  rcases hc : B.openIndex s e.indexName with ⟨r, s1⟩
  have h1 : openStep (U := U) B e s
      = ([Call.openIndex e.indexName], s1, liftB r) := by
    simp [openStep, hc]
  rw [h1]
  refine configSpec_single B _ _ _ ?_
  intro e0 he0
  subst he0
  exact ⟨s, s1, hc⟩

theorem configSpec_refreshStep {σ ε T U Q : Type} (B : Backend σ ε T Q)
    (e : ElasticsearchSearchEngine) (s : σ) :
    ConfigSpec B (refreshStep (U := U) B e s) [Call.refreshIndex e.indexName] := by
  rcases hc : B.refreshIndex s e.indexName with ⟨r, s1⟩
  have h1 : refreshStep (U := U) B e s
      = ([Call.refreshIndex e.indexName], s1, liftB r) := by
    simp [refreshStep, hc]
  rw [h1]
  refine configSpec_single B _ _ _ ?_
  intro e0 he0
  subst he0
  exact ⟨s, s1, hc⟩

theorem configSpec_settingsStep {σ ε T U Q : Type} (B : Backend σ ε T Q)
    (e : ElasticsearchSearchEngine) (s : σ) :
    ConfigSpec B (settingsStep (U := U) B e s)
      (match e.indexSettings with
       | none => []
       | some st => [Call.putIndexSettings e.indexName st]) := by
  cases hset : e.indexSettings with
  | none =>
    have h1 : settingsStep (U := U) B e s = ([], s, Except.ok ()) := by
      simp [settingsStep, hset]
    rw [h1]
    exact configSpec_empty B s
  | some st =>
    rcases hp : B.putIndexSettings s e.indexName st with ⟨r, s1⟩
    have h1 : settingsStep (U := U) B e s
        = ([Call.putIndexSettings e.indexName st], s1, liftB r) := by
      simp [settingsStep, hset, hp]
    rw [h1]
    refine configSpec_single B _ _ _ ?_
    intro e0 he0
    subst he0
    exact ⟨s, s1, hp⟩

theorem configSpec_mappingStep {σ ε T U Q : Type} (B : Backend σ ε T Q)
    (e : ElasticsearchSearchEngine) (s : σ) :
    ConfigSpec B (mappingStep (U := U) B e s)
      (match e.mapping with
       | none => []
       | some m => [Call.putIndexMapping e.indexName e.typeName m]) := by
  cases hmap : e.mapping with
  | none =>
    have h1 : mappingStep (U := U) B e s = ([], s, Except.ok ()) := by
      simp [mappingStep, hmap]
    rw [h1]
    exact configSpec_empty B s
  | some m =>
    rcases hp : B.putIndexMapping s e.indexName e.typeName m with ⟨r, s1⟩
    have h1 : mappingStep (U := U) B e s
        = ([Call.putIndexMapping e.indexName e.typeName m], s1, liftB r) := by
      simp [mappingStep, hmap, hp]
    rw [h1]
    refine configSpec_single B _ _ _ ?_
    intro e0 he0
    subst he0
    exact ⟨s, s1, hp⟩

theorem applyConfiguration_spec {σ ε T U Q : Type} (B : Backend σ ε T Q)
    (e : ElasticsearchSearchEngine) (s : σ)
    (h : (e.indexSettings.isSome || e.mapping.isSome) = true) :
    ConfigSpec B (applyConfiguration (U := U) B e s)
      (specConfigSequence (U := U) e) := by
  have hseq : specConfigSequence (U := U) (T := T) (Q := Q) e
      = [Call.closeIndex e.indexName]
        ++ ((match e.indexSettings with
             | none => []
             | some st => [Call.putIndexSettings e.indexName st])
          ++ ((match e.mapping with
               | none => []
               | some m => [Call.putIndexMapping e.indexName e.typeName m])
            ++ [Call.openIndex e.indexName, Call.refreshIndex e.indexName])) := by
    simp [specConfigSequence]
  have hstep : applyConfiguration (U := U) B e s
      = andThen (closeStep (U := U) B e s) (fun s1 =>
          andThen (settingsStep (U := U) B e s1) (fun s2 =>
            andThen (mappingStep (U := U) B e s2) (fun s3 =>
              andThen (openStep (U := U) B e s3) (fun s4 =>
                refreshStep (U := U) B e s4)))) := by
    simp [applyConfiguration, h]
  rw [hseq, hstep]
  refine configSpec_andThen (configSpec_closeStep B e s) (fun s1 => ?_)
  refine configSpec_andThen (configSpec_settingsStep B e s1) (fun s2 => ?_)
  refine configSpec_andThen (configSpec_mappingStep B e s2) (fun s3 => ?_)
  simpa using
    configSpec_andThen (configSpec_openStep B e s3)
      (fun s4 => configSpec_refreshStep B e s4)

/-- C1: when the connection gate and ensureIndex have completed, the backend
calls `initialize` issues after ensureIndex are exactly those of the
configuration block, and its outcome is the configuration block's outcome
(errors propagate).  When neither settings nor mapping were supplied the
block issues no call and succeeds.  When either was supplied, the calls
issued are a prefix of close → putSettings (if settings) → putMapping (if
mapping) → open → refresh, the full sequence exactly on success, and on
failure the error is a propagated backend error and the trace ends exactly
at the call that raised it — no later step of the sequence is issued past a
failing one. -/
theorem initialize_config_protocol {σ ε T U Q : Type} (B : Backend σ ε T Q)
    (e : ElasticsearchSearchEngine) (fuel : Nat) (s : σ)
    (trW trE : List (Call T U Q)) (s1 s2 : σ)
    (hW : waitForConnection (U := U) B fuel s = (trW, s1, true))
    (hE : ensureIndex (U := U) B e s1 = (trE, s2, Except.ok ())) :
    (initializeEngine (U := U) B e fuel s).1
        = trW ++ trE ++ (applyConfiguration (U := U) B e s2).1
    ∧ (initializeEngine (U := U) B e fuel s).2.2
        = (applyConfiguration (U := U) B e s2).2.2
    ∧ (e.indexSettings = none → e.mapping = none →
        applyConfiguration (U := U) B e s2 = ([], s2, Except.ok ()))
    ∧ ((e.indexSettings.isSome || e.mapping.isSome) = true →
        (∃ n, (applyConfiguration (U := U) B e s2).1
            = (specConfigSequence (U := U) e).take n)
        ∧ ((applyConfiguration (U := U) B e s2).2.2 = Except.ok () →
            (applyConfiguration (U := U) B e s2).1 = specConfigSequence (U := U) e)
        ∧ (∀ err, (applyConfiguration (U := U) B e s2).2.2 = Except.error err →
            ∃ err0 c, err = RunError.backend err0
              ∧ ((applyConfiguration (U := U) B e s2).1).getLast? = some c
              ∧ callFails B err0 c)) := by
  have h2 : andThen (ensureIndex (U := U) B e s1)
        (fun s0 => applyConfiguration (U := U) B e s0)
      = (trE ++ (applyConfiguration (U := U) B e s2).1,
         (applyConfiguration (U := U) B e s2).2.1,
         (applyConfiguration (U := U) B e s2).2.2) := by
    rw [hE, andThen_ok]
  have h1 : initializeEngine (U := U) B e fuel s
      = (trW ++ (trE ++ (applyConfiguration (U := U) B e s2).1),
         (applyConfiguration (U := U) B e s2).2.1,
         (applyConfiguration (U := U) B e s2).2.2) := by
    simp [initializeEngine, hW, h2]
  refine ⟨by rw [h1]; simp [List.append_assoc], by rw [h1], ?_, ?_⟩
  · intro hs hm
    simp [applyConfiguration, hs, hm]
  · intro hsup
    rcases applyConfiguration_spec (U := U) B e s2 hsup with ⟨⟨n, _, htr⟩, hok, herr⟩
    exact ⟨⟨n, htr⟩, hok, herr⟩

/-- Witness for `initialize_config_protocol`: on the canonical backend with
the index present, an engine configured with settings and mapping runs the
gate, the existence check, and then exactly the full configuration
sequence. -/
theorem initialize_config_protocol_witness :
    (initializeEngine (U := Unit) (esBackend (T := String) (Q := Unit))
        (create "media" "mt" (some (Json.str "s")) (some (Json.str "m"))) 1
        oneIndexES).1
      = [Call.ping, Call.sleep 2000] ++ [Call.indexExists "media"]
        ++ (applyConfiguration (U := Unit) (esBackend (T := String) (Q := Unit))
            (create "media" "mt" (some (Json.str "s")) (some (Json.str "m")))
            oneIndexES).1
    ∧ (applyConfiguration (U := Unit) (esBackend (T := String) (Q := Unit))
        (create "media" "mt" (some (Json.str "s")) (some (Json.str "m")))
        oneIndexES).1
      = specConfigSequence (U := Unit)
          (create "media" "mt" (some (Json.str "s")) (some (Json.str "m"))) := by
  have h := initialize_config_protocol (U := Unit) (esBackend (T := String) (Q := Unit))
    (create "media" "mt" (some (Json.str "s")) (some (Json.str "m"))) 1 oneIndexES
    [Call.ping, Call.sleep 2000] [Call.indexExists "media"] oneIndexES oneIndexES
    rfl rfl
  exact ⟨h.1, (h.2.2.2 rfl).2.1 rfl⟩

theorem waitForConnection_schedule {T U Q : Type} (f : Nat → Bool) :
    ∀ (N fuel k : Nat), (∀ i, i < N → f (k + i) = false) → f (k + N) = true →
      N < fuel →
      waitForConnection (U := U) (scheduleBackend (T := T) (Q := Q) f) fuel k
        = (pingCycles (N + 1), k + N + 1, true) := by
  intro N
  induction N with
  | zero =>
    intro fuel k hfail hsucc hfuel
    cases fuel with
    | zero => omega
    | succ m =>
      simp only [Nat.add_zero] at hsucc
      have hping : (scheduleBackend (T := T) (Q := Q) f).ping k
          = (Except.ok (), k + 1) := by
        simp [scheduleBackend, hsucc]
      simp [waitForConnection, hping, pingCycles]
  | succ N ih =>
    intro fuel k hfail hsucc hfuel
    cases fuel with
    | zero => omega
    | succ m =>
      have h0 : f k = false := by
        have h1 := hfail 0 (Nat.succ_pos N)
        simpa using h1
      have hrec := ih m (k + 1)
        (fun i hi => by
          have h2 := hfail (i + 1) (by omega)
          have h3 : k + (i + 1) = k + 1 + i := by omega
          rw [h3] at h2
          exact h2)
        (by
          have h4 : k + 1 + N = k + (N + 1) := by omega
          rw [h4]
          exact hsucc)
        (by omega)
      have h5 : k + 1 + N + 1 = k + (N + 1) + 1 := by omega
      rw [h5] at hrec
      have hping : (scheduleBackend (T := T) (Q := Q) f).ping k
          = (Except.error (), k + 1) := by
        simp [scheduleBackend, h0]
      simp [waitForConnection, hping, hrec, pingCycles]

theorem pingCycles_counts {T U Q : Type} (n : Nat) :
    ((pingCycles (T := T) (U := U) (Q := Q) n).countP (fun c => c.isPing)) = n
    ∧ ((pingCycles (T := T) (U := U) (Q := Q) n).countP (fun c => c.isSleep)) = n := by
  induction n with
  | zero => simp [pingCycles]
  | succ m ih =>
    have hcons : pingCycles (T := T) (U := U) (Q := Q) (m + 1)
        = Call.ping :: Call.sleep 2000 :: pingCycles m := rfl
    constructor
    · rw [hcons, List.countP_cons, List.countP_cons, ih.1]
      rfl
    · rw [hcons, List.countP_cons, List.countP_cons, ih.2]
      rfl

/-- Counterexample to C3 as stated: with a backend whose very first probe
succeeds (N = 0), the claim predicts zero backoff waits and an immediate
return, but the connection gate's trace contains one sleep — the loop
sleeps after every attempt, the successful one included. -/
theorem waitForConnection_zero_backoff_false :
    ¬ ((waitForConnection (U := Unit)
          (scheduleBackend (T := Unit) (Q := Unit) (fun _ => true)) 1 0).1.countP
        (fun c => c.isSleep) = 0) := by
  decide

/-- C3 (amended): if the health probe fails on the first N attempts and
succeeds on attempt N+1, the connection gate completes successfully given
any fuel above N — so it performs no further attempt after the successful
probe — issues exactly N+1 ping calls, and performs exactly N+1 fixed
backoff sleeps: one after every attempt, including the successful one. -/
theorem waitForConnection_converges {T U Q : Type} (f : Nat → Bool)
    (N fuel : Nat) (hfail : ∀ i, i < N → f i = false) (hsucc : f N = true)
    (hfuel : N < fuel) :
    (waitForConnection (U := U) (scheduleBackend (T := T) (Q := Q) f) fuel 0).2.2
      = true
    ∧ ((waitForConnection (U := U) (scheduleBackend (T := T) (Q := Q) f)
          fuel 0).1.countP (fun c => c.isPing)) = N + 1
    ∧ ((waitForConnection (U := U) (scheduleBackend (T := T) (Q := Q) f)
          fuel 0).1.countP (fun c => c.isSleep)) = N + 1
    ∧ (waitForConnection (U := U) (scheduleBackend (T := T) (Q := Q) f)
          fuel 0).2.1 = N + 1 := by
  have h := waitForConnection_schedule (T := T) (U := U) (Q := Q) f N fuel 0
    (fun i hi => by simpa using hfail i hi) (by simpa using hsucc) hfuel
  rw [h]
  exact ⟨rfl, (pingCycles_counts (N + 1)).1, (pingCycles_counts (N + 1)).2,
    by simp⟩

/-- Witness for `waitForConnection_converges`: two failed probes, success on
the third attempt, three pings and three sleeps. -/
theorem waitForConnection_converges_witness :
    (waitForConnection (U := Unit) (scheduleBackend (T := Unit) (Q := Unit)
        (fun k => decide (2 ≤ k))) 3 0).2.2 = true
    ∧ ((waitForConnection (U := Unit) (scheduleBackend (T := Unit) (Q := Unit)
        (fun k => decide (2 ≤ k))) 3 0).1.countP (fun c => c.isPing)) = 3
    ∧ ((waitForConnection (U := Unit) (scheduleBackend (T := Unit) (Q := Unit)
        (fun k => decide (2 ≤ k))) 3 0).1.countP (fun c => c.isSleep)) = 3 := by
  have h := waitForConnection_converges (T := Unit) (U := Unit) (Q := Unit)
    (fun k => decide (2 ≤ k)) 2 3
    (by intro i hi; interval_cases i <;> rfl) (by rfl) (by omega)
  exact ⟨h.1, h.2.1, h.2.2.1⟩

theorem ensureIndex_es_present {T U Q : Type} (e2 : ElasticsearchSearchEngine)
    (s : ESState T) (h : (s e2.indexName).isSome = true) :
    ensureIndex (U := U) (esBackend (T := T) (Q := Q)) e2 s
      = ([Call.indexExists e2.indexName], s, Except.ok ()) := by
  simp [ensureIndex, esBackend, h]

theorem ensureIndex_es_ensures {T U Q : Type} (e2 : ElasticsearchSearchEngine)
    (s : ESState T) :
    (((ensureIndex (U := U) (esBackend (T := T) (Q := Q)) e2 s).2.1)
        e2.indexName).isSome = true := by
  rcases hn : s e2.indexName with _ | ix
  · simp [ensureIndex, esBackend, hn, esSetIndex]
  · simp [ensureIndex, esBackend, hn]

/-- C6: for every backend, `ensureIndex` issues a createIndex call iff the
existence check reported the index absent — its trace is the existence check
alone when present, the check followed by a create when absent — and on the
canonical backend running `ensureIndex` twice leaves the same backend state
as running it once. -/
theorem ensureIndex_create_iff_absent_idempotent {σ ε T U Q : Type}
    (B : Backend σ ε T Q) (e : ElasticsearchSearchEngine) (s s1 : σ) (b : Bool)
    (hEx : B.indexExists s e.indexName = (Except.ok b, s1)) :
    (ensureIndex (U := U) B e s).1
      = (if b then [Call.indexExists e.indexName]
         else [Call.indexExists e.indexName, Call.createIndex e.indexName])
    ∧ ((Call.createIndex e.indexName : Call T U Q)
          ∈ (ensureIndex (U := U) B e s).1 ↔ b = false)
    ∧ ∀ (st : ESState T) (e2 : ElasticsearchSearchEngine),
        (ensureIndex (U := U) (esBackend (T := T) (Q := Q)) e2
            ((ensureIndex (U := U) (esBackend (T := T) (Q := Q)) e2 st).2.1)).2.1
          = (ensureIndex (U := U) (esBackend (T := T) (Q := Q)) e2 st).2.1 := by
  refine ⟨?_, ?_, ?_⟩
  · cases b with
    | false =>
      rcases hc : B.createIndex s1 e.indexName with ⟨r, s2⟩
      simp [ensureIndex, hEx, hc]
    | true => simp [ensureIndex, hEx]
  · cases b with
    | false =>
      rcases hc : B.createIndex s1 e.indexName with ⟨r, s2⟩
      simp [ensureIndex, hEx, hc]
    | true => simp [ensureIndex, hEx]
  · intro st e2
    have hpres := ensureIndex_es_ensures (U := U) (Q := Q) e2 st
    rw [ensureIndex_es_present (U := U) (Q := Q) e2 _ hpres]

/-- Witness for `ensureIndex_create_iff_absent_idempotent`: on the empty
canonical backend the index is created, and a second run leaves the state of
the first run unchanged. -/
theorem ensureIndex_idempotent_witness :
    (ensureIndex (U := Unit) (esBackend (T := String) (Q := Unit))
        (create "media" "mt" none none) emptyES).1
      = [Call.indexExists "media", Call.createIndex "media"]
    ∧ (ensureIndex (U := Unit) (esBackend (T := String) (Q := Unit))
          (create "media" "mt" none none)
          ((ensureIndex (U := Unit) (esBackend (T := String) (Q := Unit))
              (create "media" "mt" none none) emptyES).2.1)).2.1
        = (ensureIndex (U := Unit) (esBackend (T := String) (Q := Unit))
            (create "media" "mt" none none) emptyES).2.1 := by
  have h := ensureIndex_create_iff_absent_idempotent (U := Unit)
    (esBackend (T := String) (Q := Unit)) (create "media" "mt" none none)
    emptyES emptyES false rfl
  refine ⟨?_, h.2.2 emptyES (create "media" "mt" none none)⟩
  simpa using h.1

theorem runOp_preserves_engine {σ ε T U Q : Type} (B : Backend σ ε T Q)
    (convert : U → String → String → Q) (op : Op T U)
    (p : ElasticsearchSearchEngine × σ) :
    (runOp B convert op p).1 = p.1 := by
  rcases p with ⟨e, s⟩
  cases op <;> rfl

/-- C8: over any sequence of public operations, the engine instance — its
index name, type name, settings and mapping — stays exactly what the
constructor fixed; no operation, successful or failing, changes a field. -/
theorem engine_fields_immutable {σ ε T U Q : Type} (B : Backend σ ε T Q)
    (convert : U → String → String → Q) (ops : List (Op T U))
    (i t : String) (stg m : Option Json) (s : σ) :
    (runOps B convert ops (create i t stg m, s)).1 = create i t stg m
    ∧ (create i t stg m).indexName = i
    ∧ (create i t stg m).typeName = t
    ∧ (create i t stg m).indexSettings = stg := by
  refine ⟨?_, rfl, rfl, rfl⟩
  have hgen : ∀ (l : List (Op T U)) (p : ElasticsearchSearchEngine × σ),
      (runOps B convert l p).1 = p.1 := by
    intro l
    induction l with
    | nil => intro p; rfl
    | cons op rest ih =>
      intro p
      have hstep : runOps B convert (op :: rest) p
          = runOps B convert rest (runOp B convert op p) := rfl
      rw [hstep, ih, runOp_preserves_engine]
  exact hgen ops _

theorem waitForConnection_trace_mem {σ ε T U Q : Type} (B : Backend σ ε T Q) :
    ∀ (fuel : Nat) (s : σ) (c : Call T U Q),
      c ∈ (waitForConnection (U := U) B fuel s).1 →
      c = Call.ping ∨ c = Call.sleep 2000 := by
  intro fuel
  induction fuel with
  | zero =>
    intro s c h
    simp [waitForConnection] at h
  | succ m ih =>
    intro s c h
    rcases hp : B.ping s with ⟨r, s1⟩
    cases r with
    | ok u =>
      simp [waitForConnection, hp] at h
      rcases h with h | h <;> simp [h]
    | error e0 =>
      rcases hw : waitForConnection (U := U) B m s1 with ⟨tr, s2, cf⟩
      simp [waitForConnection, hp, hw] at h
      rcases h with h | h | h
      · simp [h]
      · simp [h]
      · exact ih s1 c (by rw [hw]; exact h)

theorem ensureIndex_trace_mem {σ ε T U Q : Type} (B : Backend σ ε T Q)
    (e : ElasticsearchSearchEngine) (s : σ) (c : Call T U Q)
    (h : c ∈ (ensureIndex (U := U) B e s).1) :
    c = Call.indexExists e.indexName ∨ c = Call.createIndex e.indexName := by
  rcases hx : B.indexExists s e.indexName with ⟨r, s1⟩
  cases r with
  | error err =>
    simp [ensureIndex, hx] at h
    simp [h]
  | ok b =>
    cases b with
    | false =>
      rcases hc : B.createIndex s1 e.indexName with ⟨r2, s2⟩
      simp [ensureIndex, hx, hc] at h
      rcases h with h | h <;> simp [h]
    | true =>
      simp [ensureIndex, hx] at h
      simp [h]

theorem applyConfiguration_trace_mem {σ ε T U Q : Type} (B : Backend σ ε T Q)
    (e : ElasticsearchSearchEngine) (s : σ) (c : Call T U Q)
    (h : c ∈ (applyConfiguration (U := U) B e s).1) :
    c ∈ specConfigSequence (U := U) (T := T) (Q := Q) e := by
  rcases hsup : (e.indexSettings.isSome || e.mapping.isSome) with _ | _
  · have hempty : applyConfiguration (U := U) B e s = ([], s, Except.ok ()) := by
      simp [applyConfiguration, hsup]
    rw [hempty] at h
    simp at h
  · rcases applyConfiguration_spec (U := U) B e s hsup with ⟨⟨n, _, htr⟩, _, _⟩
    rw [htr] at h
    exact List.mem_of_mem_take h

theorem specConfigSequence_mem_putMapping {T U Q : Type}
    (e : ElasticsearchSearchEngine) (idx ty : String) (body : Json)
    (h : (Call.putIndexMapping idx ty body : Call T U Q)
        ∈ specConfigSequence (U := U) e) :
    e.mapping = some body ∧ idx = e.indexName ∧ ty = e.typeName := by
  rcases hset : e.indexSettings with _ | st <;>
    rcases hmap : e.mapping with _ | mm <;>
      simp [specConfigSequence, hset, hmap] at h <;>
        exact ⟨by rw [h.2.2], h.1, h.2.1⟩

theorem initializeEngine_trace_mem {σ ε T U Q : Type} (B : Backend σ ε T Q)
    (e : ElasticsearchSearchEngine) (fuel : Nat) (s : σ) (c : Call T U Q)
    (h : c ∈ (initializeEngine (U := U) B e fuel s).1) :
    c = Call.ping ∨ c = Call.sleep 2000
    ∨ c = Call.indexExists e.indexName ∨ c = Call.createIndex e.indexName
    ∨ c ∈ specConfigSequence (U := U) (T := T) (Q := Q) e := by
  rcases hw : waitForConnection (U := U) B fuel s with ⟨trW, s1, flag⟩
  cases flag with
  | false =>
    have h1 : initializeEngine (U := U) B e fuel s
        = (trW, s1, Except.error RunError.diverged) := by
      simp [initializeEngine, hw]
    rw [h1] at h
    have h2 := waitForConnection_trace_mem (U := U) B fuel s c
      (by rw [hw]; exact h)
    tauto
  | true =>
    rcases hE : ensureIndex (U := U) B e s1 with ⟨trE, s2, rE⟩
    cases rE with
    | error err =>
      have hand : andThen (ensureIndex (U := U) B e s1)
          (fun s0 => applyConfiguration (U := U) B e s0)
          = (trE, s2, Except.error err) := by
        rw [hE]
        rfl
      have h1 : initializeEngine (U := U) B e fuel s
          = (trW ++ trE, s2, Except.error err) := by
        simp [initializeEngine, hw, hand]
      rw [h1] at h
      simp at h
      rcases h with h | h
      · have h2 := waitForConnection_trace_mem (U := U) B fuel s c
          (by rw [hw]; exact h)
        tauto
      · have h2 := ensureIndex_trace_mem (U := U) B e s1 c (by rw [hE]; exact h)
        tauto
    | ok u =>
      cases u
      have hand : andThen (ensureIndex (U := U) B e s1)
          (fun s0 => applyConfiguration (U := U) B e s0)
          = (trE ++ (applyConfiguration (U := U) B e s2).1,
             (applyConfiguration (U := U) B e s2).2.1,
             (applyConfiguration (U := U) B e s2).2.2) := by
        rw [hE, andThen_ok]
      have h1 : (initializeEngine (U := U) B e fuel s).1
          = trW ++ (trE ++ (applyConfiguration (U := U) B e s2).1) := by
        simp [initializeEngine, hw, hand]
      rw [h1] at h
      simp at h
      rcases h with h | h | h
      · have h2 := waitForConnection_trace_mem (U := U) B fuel s c
          (by rw [hw]; exact h)
        tauto
      · have h2 := ensureIndex_trace_mem (U := U) B e s1 c (by rw [hE]; exact h)
        tauto
      · have h2 := applyConfiguration_trace_mem (U := U) B e s2 c h
        tauto

/-- C9: every putIndexMapping call issued during `initialize` is scoped to
the configured type name and its body is the supplied mapping nested under
that single type-name key — not the supplied mapping itself; and when no
mapping was supplied at construction, no putIndexMapping call is issued at
all, even when settings were supplied. -/
theorem initialize_putMapping_wrapped {σ ε T U Q : Type} (B : Backend σ ε T Q)
    (fuel : Nat) (s : σ) (i t : String) (stg : Option Json) :
    (∀ (m : Json) (c : Call T U Q),
        c ∈ (initializeEngine (U := U) B (create i t stg (some m)) fuel s).1 →
        ∀ idx ty body, c = Call.putIndexMapping idx ty body →
          idx = i ∧ ty = t ∧ body = Json.obj [(t, m)])
    ∧ (∀ (c : Call T U Q),
        c ∈ (initializeEngine (U := U) B (create i t stg none) fuel s).1 →
        ∀ idx ty body, c ≠ Call.putIndexMapping idx ty body) := by
  constructor
  · intro m c hmem idx ty body hc
    subst hc
    have h := initializeEngine_trace_mem (U := U) B (create i t stg (some m))
      fuel s _ hmem
    rcases h with h | h | h | h | h
    · simp at h
    · simp at h
    · simp at h
    · simp at h
    · have h2 := specConfigSequence_mem_putMapping (U := U)
        (create i t stg (some m)) idx ty body h
      have hmapeq : (create i t stg (some m)).mapping
          = some (Json.obj [(t, m)]) := rfl
      rw [hmapeq] at h2
      have hbody : body = Json.obj [(t, m)] := by
        have := h2.1
        simpa using this.symm
      exact ⟨h2.2.1, h2.2.2, hbody⟩
  · intro c hmem idx ty body hc
    subst hc
    have h := initializeEngine_trace_mem (U := U) B (create i t stg none)
      fuel s _ hmem
    rcases h with h | h | h | h | h
    · simp at h
    · simp at h
    · simp at h
    · simp at h
    · have h2 := specConfigSequence_mem_putMapping (U := U)
        (create i t stg none) idx ty body h
      have hmapeq : (create i t stg none).mapping = none := rfl
      rw [hmapeq] at h2
      simp at h2

/-- Witness for `initialize_putMapping_wrapped`: with a supplied mapping the
trace holds a putIndexMapping call whose body is the mapping wrapped under
the type name. -/
theorem initialize_putMapping_wrapped_witness :
    Call.putIndexMapping "media" "mt" (Json.obj [("mt", Json.str "m")])
      ∈ (initializeEngine (U := Unit) (esBackend (T := String) (Q := Unit))
          (create "media" "mt" none (some (Json.str "m"))) 1 oneIndexES).1
    ∧ ("media" : String) = "media" ∧ ("mt" : String) = "mt"
      ∧ Json.obj [("mt", Json.str "m")] = Json.obj [("mt", Json.str "m")] := by
  have htr : (initializeEngine (U := Unit) (esBackend (T := String) (Q := Unit))
        (create "media" "mt" none (some (Json.str "m"))) 1 oneIndexES).1
      = [Call.ping, Call.sleep 2000, Call.indexExists "media",
         Call.closeIndex "media",
         Call.putIndexMapping "media" "mt" (Json.obj [("mt", Json.str "m")]),
         Call.openIndex "media", Call.refreshIndex "media"] := rfl
  have hmem : Call.putIndexMapping "media" "mt" (Json.obj [("mt", Json.str "m")])
      ∈ (initializeEngine (U := Unit) (esBackend (T := String) (Q := Unit))
          (create "media" "mt" none (some (Json.str "m"))) 1 oneIndexES).1 := by
    rw [htr]
    simp
  have h := (initialize_putMapping_wrapped (U := Unit)
      (esBackend (T := String) (Q := Unit)) 1 oneIndexES "media" "mt" none).1
    (Json.str "m") _ hmem "media" "mt" _ rfl
  exact ⟨hmem, h⟩

/-- C10: `drop` issues its deleteIndex call unconditionally as its first
backend call, without any prior existence check; if the delete fails, the
error propagates and no part of the re-initialization (gate, ensureIndex,
configuration) is issued; and on the canonical backend a failing delete
leaves the backend state unchanged (nothing deleted, nothing recreated). -/
theorem drop_delete_unconditional {σ ε T U Q : Type} (B : Backend σ ε T Q)
    (e : ElasticsearchSearchEngine) (fuel : Nat) (s s1 : σ) (err : ε)
    (h : B.deleteIndex s e.indexName = (Except.error err, s1)) :
    drop (U := U) B e fuel s
      = ([Call.deleteIndex e.indexName], s1, Except.error (RunError.backend err))
    ∧ (∀ s2 : σ, ((drop (U := U) B e fuel s2).1).head?
        = some (Call.deleteIndex e.indexName))
    ∧ (∀ (st st2 : ESState T) (e2 : ElasticsearchSearchEngine) (err2 : String),
        (esBackend (T := T) (Q := Q)).deleteIndex st e2.indexName
            = (Except.error err2, st2) →
        st2 = st) := by
  refine ⟨?_, ?_, ?_⟩
  · simp [drop, h]
  · intro s2
    rcases hd : B.deleteIndex s2 e.indexName with ⟨r, s3⟩
    cases r with
    | error e0 => simp [drop, hd]
    | ok u =>
      rcases hi : initializeEngine (U := U) B e fuel s3 with ⟨tr, s4, ri⟩
      simp [drop, hd, hi]
  · intro st st2 e2 err2 hdel
    rcases hn : st e2.indexName with _ | ix
    · simp [esBackend, hn] at hdel
      exact hdel.2.symm
    · simp [esBackend, hn] at hdel

/-- Witness for `drop_delete_unconditional`: deleting a missing index on the
canonical backend fails and `drop` stops at the single delete call. -/
theorem drop_delete_unconditional_witness :
    drop (U := Unit) (esBackend (T := String) (Q := Unit))
        (create "media" "mt" none none) 1 emptyES
      = ([Call.deleteIndex "media"], emptyES,
         Except.error (RunError.backend "index_not_found")) := by
  have h := drop_delete_unconditional (U := Unit)
    (esBackend (T := String) (Q := Unit)) (create "media" "mt" none none) 1
    emptyES emptyES "index_not_found" rfl
  exact h.1

/-- Counterexample to C7 as stated: the claim has the connection gate
skipped when the client is already connected, but `drop` re-runs the full
`initialize`, whose gate issues a ping (and a backoff sleep) even on a
backend that is reachable throughout — the count of ping calls in the drop
trace is not zero. -/
theorem drop_gate_not_skipped :
    ¬ (((drop (U := Unit) (esBackend (T := String) (Q := Unit))
          (create "media" "mt" none none) 1 oneIndexES).1.countP
        (fun c => c.isPing)) = 0) := by
  have htr : (drop (U := Unit) (esBackend (T := String) (Q := Unit))
      (create "media" "mt" none none) 1 oneIndexES).1
      = [Call.deleteIndex "media", Call.ping, Call.sleep 2000,
         Call.indexExists "media", Call.createIndex "media"] := rfl
  rw [htr]
  decide

/-- C7 (amended): `drop` deletes the configured index and re-runs the full
initialization — including the connection gate, which issues a ping and a
backoff sleep even though the client is already connected — then
ensureIndex (the index was just deleted, so it is created) and the
configuration block; after a successful drop the index exists, open, with
the configured settings applied and the supplied mapping stored under the
configured type name, and all other indices are untouched. -/
theorem drop_recreates_configured_index {T U Q : Type}
    (i t : String) (stg m : Json) (s0 : ESState T) (ix : ESIndexState T)
    (hpres : s0 i = some ix) :
    (drop (U := U) (esBackend (T := T) (Q := Q))
        (create i t (some stg) (some m)) 1 s0).1
      = [Call.deleteIndex i, Call.ping, Call.sleep 2000, Call.indexExists i,
         Call.createIndex i, Call.closeIndex i, Call.putIndexSettings i stg,
         Call.putIndexMapping i t (Json.obj [(t, m)]), Call.openIndex i,
         Call.refreshIndex i]
    ∧ (drop (U := U) (esBackend (T := T) (Q := Q))
        (create i t (some stg) (some m)) 1 s0).2.2 = Except.ok ()
    ∧ ((drop (U := U) (esBackend (T := T) (Q := Q))
        (create i t (some stg) (some m)) 1 s0).2.1) i
      = some { isOpen := true, settings := some stg,
               mappings := [(t, Json.obj [(t, m)])], docs := [] }
    ∧ ∀ n, n ≠ i → ((drop (U := U) (esBackend (T := T) (Q := Q))
        (create i t (some stg) (some m)) 1 s0).2.1) n = s0 n := by
  refine ⟨?_, ?_, ?_, ?_⟩
  · simp [drop, initializeEngine, waitForConnection, ensureIndex,
      applyConfiguration, andThen, closeStep, settingsStep, mappingStep,
      openStep, refreshStep, esBackend, esSetIndex, upsertMapping, liftB,
      create, hpres]
  · simp [drop, initializeEngine, waitForConnection, ensureIndex,
      applyConfiguration, andThen, closeStep, settingsStep, mappingStep,
      openStep, refreshStep, esBackend, esSetIndex, upsertMapping, liftB,
      create, hpres]
  · simp [drop, initializeEngine, waitForConnection, ensureIndex,
      applyConfiguration, andThen, closeStep, settingsStep, mappingStep,
      openStep, refreshStep, esBackend, esSetIndex, upsertMapping, liftB,
      create, hpres]
  · intro n hn
    simp [drop, initializeEngine, waitForConnection, ensureIndex,
      applyConfiguration, andThen, closeStep, settingsStep, mappingStep,
      openStep, refreshStep, esBackend, esSetIndex, upsertMapping, liftB,
      create, hpres, hn]

/-- Witness for `drop_recreates_configured_index` at a concrete state. -/
theorem drop_recreates_configured_index_witness :
    (drop (U := Unit) (esBackend (T := String) (Q := Unit))
        (create "media" "mt" (some (Json.str "s")) (some (Json.str "m"))) 1
        oneIndexES).2.2 = Except.ok ()
    ∧ ((drop (U := Unit) (esBackend (T := String) (Q := Unit))
        (create "media" "mt" (some (Json.str "s")) (some (Json.str "m"))) 1
        oneIndexES).2.1) "media"
      = some { isOpen := true, settings := some (Json.str "s"),
               mappings := [("mt", Json.obj [("mt", Json.str "m")])],
               docs := [] } := by
  have h := drop_recreates_configured_index (U := Unit) (Q := Unit)
    "media" "mt" (Json.str "s") (Json.str "m") oneIndexES
    { isOpen := true, settings := none, mappings := [], docs := [] } rfl
  exact ⟨h.2.1, h.2.2.1⟩

end ElasticsearchSearchEngine

end MVW
